import Mathlib

/-!
# gin-frame: instrumented client wrappers and the panic boundary

A shallow embedding of

* `libraries/redis/redis.go`  (`Conn`, `RedisDB.Do`),
* `libraries/es/elastic.go`   (`InitES`, `Elastic.JsonMap`, `Elastic.JsonMapHttp`),
* `middlewares/panic/panic_middleware.go` (`bodyLogWriter.Write`, `ThrowPanic`).

Go code with side effects is written as explicit state passing: every function takes the
observable world (pool, tracer, log sink, clock position) and returns the new one.  Deferred
calls are written out at the point where Go runs them (on return, last registered first).
Libraries outside the repository (redigo, opentracing, gin, `time`, `fmt`, `encoding/json`)
and packages of the repository that are not part of the sources at hand (`log`, `xhop`, `util`,
`config`, `codes`) appear as fields of an environment record or as small data types that keep
exactly what the embedded code reads and writes.
-/

namespace GinFrame

/-! ## Go values -/

/-- A Go `error` that is not nil, identified by the text of `Error()`. -/
structure GoError where
  text : String
  deriving DecidableEq, Repr

/-- A value carried by a Go panic. -/
structure Fault where
  text : String
  deriving DecidableEq, Repr

/-- A dynamically typed Go value (`interface{}`), as far as JSON-like data needs it.
`list` is a slice, `map` a `map[string]interface{}` given by its key/value pairs. -/
inductive GoValue where
  | nil
  | bool (b : Bool)
  | int (n : Int)
  | str (s : String)
  | list (xs : List GoValue)
  | map (kvs : List (String × GoValue))

/-- The Go test `v != nil` on an `interface{}`. -/
def GoValue.isNil : GoValue → Bool
  | .nil => true
  | _ => false

/-- A Go map with string keys, as an association list (first binding of a key wins). -/
abbrev GoMap := List (String × GoValue)

/-- Go map indexing `m[k]`: the zero value (nil) when the key is absent. -/
def GoMap.index (m : GoMap) (k : String) : GoValue :=
  (m.lookup k).getD GoValue.nil

/-- The comma-ok form `_, ok := m[k]`: whether the key is present. -/
def GoMap.hasKey (m : GoMap) (k : String) : Bool :=
  (m.lookup k).isSome

/-! ## Time -/

/-- Smallest `time.Duration` (int64 nanoseconds). -/
def minDuration : Int := -(2 ^ 63)

/-- Largest `time.Duration` (int64 nanoseconds). -/
def maxDuration : Int := 2 ^ 63 - 1

/-- Go `t.Sub(u)` on instants counted in nanoseconds: the difference, saturated to the
range of a `time.Duration`. -/
def timeSub (t u : Int) : Int :=
  if t - u < minDuration then minDuration
  else if maxDuration < t - u then maxDuration
  else t - u

/-- Go `d.Microseconds()`: integer division truncating toward zero. -/
def durationMicroseconds (d : Int) : Int := Int.tdiv d 1000

/-- Go `d.Milliseconds()`: integer division truncating toward zero. -/
def durationMilliseconds (d : Int) : Int := Int.tdiv d 1000000

/-! ## Log context -/

/-- A hop id of package `xhop`, identified by the text its method `String()` returns. -/
structure XHop where
  text : String
  deriving DecidableEq, Repr

/-- The fields of `log.LogFormat` that the embedded code reads or writes (the declaration
itself lives in package `log`). Instants are nanoseconds; the zero `time.Time` is 0. -/
structure LogFormat where
  LogId : String
  Port : Int
  Method : String
  CallerIp : String
  UriPath : String
  XHop : XHop
  Product : String
  Module : String
  Env : String
  StartTime : Int
  EndTime : Int
  LatencyTime : Int
  HttpCode : Int
  deriving DecidableEq, Repr

/-- The zero value `&log.LogFormat{}`. -/
def LogFormat.zero : LogFormat :=
  { LogId := "", Port := 0, Method := "", CallerIp := "", UriPath := "", XHop := ⟨""⟩,
    Product := "", Module := "", Env := "", StartTime := 0, EndTime := 0,
    LatencyTime := 0, HttpCode := 0 }

/-- Severity of a log call (`log.Errorf`, `log.Warnf`, `log.Infof`). -/
inductive Level where
  | error
  | warn
  | info
  deriving DecidableEq, Repr

/-- An operand handed to a formatting log call. -/
inductive LogArg where
  | str (s : String)
  | int (n : Int)
  | err (e : GoError)
  deriving DecidableEq, Repr

/-- One call of `log.Errorf/Warnf/Infof(header, format, args...)`: the level, the header
as it stood at the call (none for a nil pointer), the format string and the operands. -/
structure LogRecord where
  level : Level
  header : Option LogFormat
  format : String
  args : List LogArg
  deriving DecidableEq, Repr

/-! ## Tracing -/

/-- A span tag value. -/
inductive TagValue where
  | bool (b : Bool)
  | str (s : String)
  | int (n : Int)
  deriving DecidableEq, Repr

/-- A span of the tracer: its operation name, its parent, its current tags, and for every
call of `Finish` the tags it carried at that moment. -/
structure Span where
  operationName : String
  parent : Option Nat
  tags : List (String × TagValue)
  finished : List (List (String × TagValue))
  deriving DecidableEq, Repr

/-- The effect of `SetTag` on a tag set: a key holds one value, the last one written. -/
def setTagList (k : String) (v : TagValue) (tags : List (String × TagValue)) :
    List (String × TagValue) :=
  tags.filter (fun kv => kv.1 != k) ++ [(k, v)]

/-- Apply `f` to the span with handle `id`. -/
def modifySpan (id : Nat) (f : Span → Span) : List Span → List Span
  | [] => []
  | s :: ss =>
    match id with
    | 0 => f s :: ss
    | n + 1 => s :: modifySpan n f ss

/-- A request-scoped `context.Context`: the active span (`opentracing.SpanFromContext`) and the
log header it points to (`log.LogHeaderFromContext`), none when absent. -/
structure Context where
  span : Option Nat
  logHeader : Option LogFormat
  deriving DecidableEq, Repr

/-- The context `context.TODO()`: no span, no log header. -/
def Context.TODO : Context := { span := none, logHeader := none }

/-! ## The observable world -/

/-- A connection handed out by a pool. -/
structure PoolConn where
  pool : Nat
  id : Nat
  deriving DecidableEq, Repr

/-- Everything the embedded code changes outside its own variables. -/
structure World where
  /-- The number of `time.Now()` readings taken so far. -/
  ticks : Nat
  /-- The number of `redis.Pool` values constructed so far. -/
  pools : Nat
  /-- The connections handed out by `pool.Get()`, oldest first. -/
  borrowed : List PoolConn
  /-- The connections given back by `conn.Close()`, oldest first. -/
  closed : List PoolConn
  /-- The commands sent with `conn.Do`, oldest first. -/
  calls : List (PoolConn × String × List GoValue)
  /-- The spans started so far; a span handle is its position. -/
  spans : List Span
  /-- The log calls made so far, oldest first. -/
  logs : List LogRecord

/-- A world in which nothing has happened yet. -/
def World.init : World :=
  { ticks := 0, pools := 0, borrowed := [], closed := [], calls := [], spans := [], logs := [] }

/-- The calls `opentracing.StartSpan(name)` and `StartSpan(name, ChildOf(parent.Context()))`. -/
def StartSpan (name : String) (parent : Option Nat) (w : World) : Nat × World :=
  (w.spans.length,
   { w with spans := w.spans ++
      [{ operationName := name, parent := parent, tags := [], finished := [] }] })

/-- The call `span.SetTag(k, v)`. -/
def SetTag (span : Nat) (k : String) (v : TagValue) (w : World) : World :=
  let spans := modifySpan span (fun s => { s with tags := setTagList k v s.tags }) w.spans
  { w with spans := spans }

/-- The call `span.Finish()`: the tags carried at this moment are recorded. -/
def Finish (span : Nat) (w : World) : World :=
  let spans := modifySpan span (fun s => { s with finished := s.finished ++ [s.tags] }) w.spans
  { w with spans := spans }

/-- A formatting log call on the header `h`. -/
def logf (level : Level) (h : Option LogFormat) (format : String) (args : List LogArg)
    (w : World) : World :=
  { w with logs := w.logs ++ [LogRecord.mk level h format args] }

/-! ## `libraries/redis/redis.go` -/

/-- The connection settings (`redis.Config`, declared next to `redis.go`). -/
structure Config where
  Host : String
  Port : Int
  Password : String
  DB : Int
  MaxActive : Int
  MaxIdle : Int
  IsLog : Bool
  deriving DecidableEq, Repr

/-- The Go type `RedisDB`: a pool handle and the settings. -/
structure RedisDB where
  pool : Nat
  Config : Config
  deriving DecidableEq, Repr

/-- What `conn.Do(commandName, args...)` of the redis client does: it returns a reply and an
error (none for nil), or it panics. -/
inductive ConnResult where
  | done (reply : GoValue) (err : Option GoError)
  | fault (v : Fault)

/-- The section of the configuration file read by `Conn`: each `Key(..).Int()` or
`Key(..).Bool()` yields a value and an error. -/
structure FileCfg where
  host : String
  port : Int × Option GoError
  auth : String
  db : Int × Option GoError
  max_active : Int × Option GoError
  max_idle : Int × Option GoError
  is_log : Bool × Option GoError

/-- The surroundings of the redis wrapper. -/
structure RedisEnv where
  /-- The n-th reading of `time.Now()`, in nanoseconds. -/
  clock : Nat → Int
  /-- The answer of the backend behind pool `p` to a command; an unreachable backend answers
  every command, the probe included, with the dial error. -/
  backend : Nat → String → List GoValue → ConnResult
  /-- The Go function `fmt.Sprint` on one operand. -/
  fmtSprint : GoValue → String
  /-- The section `config.GetConfig("redis", name)`. -/
  getConfig : String → FileCfg
  /-- What `util.Must(err)` does with a non-nil error: the fault it raises, or none when it
  returns. -/
  must : GoError → Option Fault
  /-- The header `log.NewLog()` returns. -/
  NewLog : LogFormat
  /-- The hop id `xhop.NewXhopNull()` returns. -/
  NewXhopNull : XHop

/-- The call `time.Now()`: the next reading of the clock. -/
def timeNow (clock : Nat → Int) (w : World) : Int × World :=
  (clock w.ticks, { w with ticks := w.ticks + 1 })

/-- The call `db.pool.Get()`: hands out a fresh connection of the pool. -/
def poolGet (pool : Nat) (w : World) : PoolConn × World :=
  let c : PoolConn := { pool := pool, id := w.borrowed.length }
  (c, { w with borrowed := w.borrowed ++ [c] })

/-- The call `conn.Close()`: gives the connection back to its pool. -/
def connClose (c : PoolConn) (w : World) : World :=
  { w with closed := w.closed ++ [c] }

/-- The call `conn.Do(commandName, args...)`: the command goes to the backend. -/
def connDo (env : RedisEnv) (c : PoolConn) (commandName : String) (args : List GoValue)
    (w : World) : ConnResult × World :=
  (env.backend c.pool commandName args, { w with calls := w.calls ++ [(c, commandName, args)] })

/-- The Go expression `fmt.Sprint(commandName, " ", strings.Join(argsStr, " "))`; all three
operands are strings, so `Sprint` adds no separators. -/
def statementOf (commandName : String) (argsStr : List String) : String :=
  commandName ++ " " ++ " ".intercalate argsStr

/-- How a call of `Do` ends: with its two results, or with a panic passing through. -/
inductive DoOutcome where
  | returned (reply : GoValue) (err : Option GoError)
  | panicked (v : Fault)

/-- The deferred closure of `Do` that stamps the log header and writes the log line
(lines 142-161). -/
def Do.logDeferred (env : RedisEnv) (db : RedisDB) (commandName : String)
    (argsStr : List String) (startAt : Int) (err : Option GoError)
    (logFormat : LogFormat) (w : World) : LogFormat × World :=
  let (endAt, w) := timeNow env.clock w
  let logFormat := { logFormat with StartTime := startAt }
  let logFormat := { logFormat with EndTime := endAt }
  let latencyTime := durationMicroseconds (timeSub logFormat.EndTime logFormat.StartTime)
  let logFormat := { logFormat with LatencyTime := latencyTime }
  let logFormat := { logFormat with XHop := env.NewXhopNull }
  let logFormat := { logFormat with Module := "databus/redis" }
  match err with
  | some e =>
    (logFormat, logf Level.error (some logFormat) "redis do:[%s], error: %s"
      [LogArg.str (statementOf commandName argsStr), LogArg.err e] w)
  | none =>
    if db.Config.IsLog = true then
      (logFormat, logf Level.info (some logFormat) "redis do:[%s], used: %d milliseconds"
        [LogArg.str (statementOf commandName argsStr),
         LogArg.int (durationMilliseconds (timeSub endAt startAt))] w)
    else (logFormat, w)

/-- The deferred closure of `Do` that puts the saved header fields back (lines 135-140). -/
def Do.restoreDeferred (lastModule : String) (lastStartTime lastEndTime : Int) (lastXHop : XHop)
    (logFormat : LogFormat) : LogFormat :=
  let logFormat := { logFormat with Module := lastModule }
  let logFormat := { logFormat with StartTime := lastStartTime }
  let logFormat := { logFormat with EndTime := lastEndTime }
  { logFormat with XHop := lastXHop }

/-- The method `(db *RedisDB) Do(ctx, commandName, args...)`. The result carries the context
again because the log header it points to is written through the pointer. -/
def RedisDB.Do (env : RedisEnv) (db : RedisDB) (ctx : Context) (commandName : String)
    (args : List GoValue) (w : World) : DoOutcome × Context × World :=
  if commandName = "PING" then
    -- `return` with the named results at their zero values
    (DoOutcome.returned GoValue.nil none, ctx, w)
  else
    let (conn, w) := poolGet db.pool w
    let parent := ctx.span
    let (startAt, w) := timeNow env.clock w
    let header := ctx.logHeader
    -- defer conn.Close()
    let (res, w) := connDo env conn commandName args w
    match res with
    | ConnResult.fault v =>
      -- only `conn.Close()` is deferred when the panic unwinds
      (DoOutcome.panicked v, ctx, connClose conn w)
    | ConnResult.done reply err =>
      let logFormat := header.getD env.NewLog
      let argsStr := args.map env.fmtSprint
      let lastModule := logFormat.Module
      let lastStartTime := logFormat.StartTime
      let lastEndTime := logFormat.EndTime
      let lastXHop := logFormat.XHop
      -- defer restore; defer log
      let (span, w) := StartSpan "redisDo" parent w
      -- defer span.Finish()
      let w := SetTag span "db.type" (TagValue.str "redis") w
      let w := SetTag span "db.statement" (TagValue.str (statementOf commandName argsStr)) w
      let w := SetTag span "error" (TagValue.bool err.isSome) w
      -- return: the deferred calls run, last registered first
      let w := Finish span w
      let (logFormat, w) := Do.logDeferred env db commandName argsStr startAt err logFormat w
      let logFormat := Do.restoreDeferred lastModule lastStartTime lastEndTime lastXHop logFormat
      let w := connClose conn w
      (DoOutcome.returned reply err, { ctx with logHeader := header.map (fun _ => logFormat) }, w)

/-- The Go function `errorsWrap`: `fmt.Errorf("%s: %w", msg, err)`. -/
def errorsWrap (err : GoError) (msg : String) : GoError :=
  ⟨msg ++ ": " ++ err.text⟩

/-- The package variable `obj`: logical name to client. -/
abbrev Registry := List (String × RedisDB)

/-- Go map assignment `obj[conn] = db`. -/
def Registry.set (obj : Registry) (conn : String) (db : RedisDB) : Registry :=
  (conn, db) :: obj.filter (fun kv => kv.1 != conn)

/-- How a call of `Conn` ends. -/
inductive ConnOutcome where
  | returned (db : Option RedisDB) (err : Option GoError)
  | panicked (v : Fault)

/-- The function `Conn(conn string) (db *RedisDB, err error)`; the text printed by
`fmt.Println(err)` is not kept. -/
def Conn (env : RedisEnv) (conn : String) (obj : Registry) (w : World) :
    ConnOutcome × Registry × World :=
  match obj.lookup conn with
  | some db => (ConnOutcome.returned (some db) none, obj, w)
  | none =>
    let fileCfg := env.getConfig conn
    -- every `err` but the last is overwritten before `util.Must(err)` looks at it
    match (fileCfg.is_log.2).bind env.must with
    | some v => (ConnOutcome.panicked v, obj, w)
    | none =>
      let cfg : Config :=
        { Host := fileCfg.host, Port := fileCfg.port.1, Password := fileCfg.auth,
          DB := fileCfg.db.1, MaxActive := fileCfg.max_active.1, MaxIdle := fileCfg.max_idle.1,
          IsLog := fileCfg.is_log.1 }
      let db : RedisDB := { pool := w.pools, Config := cfg }
      let w := { w with pools := w.pools + 1 }
      match RedisDB.Do env db Context.TODO "PING" [] w with
      | (DoOutcome.panicked v, _, w) => (ConnOutcome.panicked v, obj, w)
      | (DoOutcome.returned _ (some err), _, w) =>
        (ConnOutcome.returned (some db) (some (errorsWrap err "ping error")), obj, w)
      | (DoOutcome.returned _ none, _, w) =>
        (ConnOutcome.returned (some db) none, Registry.set obj conn db, w)

/-- The sequential calls `Conn(n)` for the names `ns`, one after the other; a call that panics
leaves the registry as it was, and the next call goes on from there. -/
def ConnSeq (env : RedisEnv) : List String → Registry → World → Registry × World
  | [], obj, w => (obj, w)
  | n :: ns, obj, w => ConnSeq env ns (Conn env n obj w).2.1 (Conn env n obj w).2.2

/-! ## `libraries/es/elastic.go` -/

/-- The Go type `Elastic`: the handle of the client built by `elastic.NewClient` (the raw-JSON
searches do not touch it) and the host address. -/
structure Elastic where
  Client : Nat
  host : String
  deriving DecidableEq, Repr

/-- The package variable `ElasticPool`: logical name to client. -/
abbrev ElasticPool := List (String × Elastic)

/-- Go map assignment `ElasticPool[name] = es`. -/
def ElasticPool.set (pool : ElasticPool) (name : String) (es : Elastic) : ElasticPool :=
  (name, es) :: pool.filter (fun kv => kv.1 != name)

/-- What `InitES` changes outside the registry: the number of clients built by
`elastic.NewClient`, and the hosts asked with `client.Ping` and with
`client.ElasticsearchVersion`, oldest first. -/
structure SearchWorld where
  clients : Nat
  pings : List String
  versions : List String
  deriving DecidableEq, Repr

/-- The surroundings of `InitES`. -/
structure InitEnv where
  /-- The texts `Key("host").String()` and `Key("port").String()` of the section
  `config.GetConfig("es", name)`. -/
  getConfig : String → String × String
  /-- The error of `elastic.NewClient(elastic.SetURL(host))`, none for nil. -/
  NewClient : String → Option GoError
  /-- The error of `client.Ping(host).Do(ctx)`, none for nil. -/
  Ping : String → Option GoError
  /-- The error of `client.ElasticsearchVersion(host)`, none for nil. -/
  ElasticsearchVersion : String → Option GoError

/-- How a call of `InitES` ends: with a client, or with `panic(err)`. -/
inductive InitOutcome where
  | returned (es : Elastic)
  | panicked (v : Fault)
  deriving DecidableEq, Repr

/-- The function `InitES(name string) *Elastic`; the two lines printed with `fmt.Printf` are
not kept. -/
def InitES (env : InitEnv) (name : String) (pool : ElasticPool) (w : SearchWorld) :
    InitOutcome × ElasticPool × SearchWorld :=
  match pool.lookup name with
  | some es => (InitOutcome.returned es, pool, w)
  | none =>
    let confES := env.getConfig name
    let host := confES.1 ++ ":" ++ confES.2
    match env.NewClient host with
    | some err => (InitOutcome.panicked ⟨err.text⟩, pool, w)
    | none =>
      let client := w.clients
      let w := { w with clients := w.clients + 1 }
      let w := { w with pings := w.pings ++ [host] }
      match env.Ping host with
      | some err => (InitOutcome.panicked ⟨err.text⟩, pool, w)
      | none =>
        let w := { w with versions := w.versions ++ [host] }
        match env.ElasticsearchVersion host with
        | some err => (InitOutcome.panicked ⟨err.text⟩, pool, w)
        | none =>
          let es : Elastic := { Client := client, host := host }
          (InitOutcome.returned es, ElasticPool.set pool name es, w)

/-- The sequential calls `InitES(n)` for the names `ns`, one after the other; a call that
panics leaves the registry as it was, and the next call goes on from there. -/
def InitESSeq (env : InitEnv) : List String → ElasticPool → SearchWorld →
    ElasticPool × SearchWorld
  | [], pool, w => (pool, w)
  | n :: ns, pool, w => InitESSeq env ns (InitES env n pool w).2.1 (InitES env n pool w).2.2

/-- What the exchange with the search backend (`json.Marshal`, `http.NewRequest`, `client.Do`,
`ioutil.ReadAll`, each followed by `util.Must(err)`) comes to: a panic raised on the way, with
the value the variable `err` holds at that moment, or the HTTP status and the body read. -/
inductive HttpResult where
  | fault (v : Fault) (err : Option GoError)
  | response (status : Nat) (body : String)

/-- The surroundings of the search wrapper. -/
structure EsEnv where
  /-- The n-th reading of `time.Now()`, in nanoseconds. -/
  clock : Nat → Int
  /-- The exchange: `POST url` with the marshalled request value. -/
  post : String → GoValue → HttpResult
  /-- The helper `util.JsonToMap`: the decoded map, or the panic it raises. -/
  JsonToMap : String → Except Fault GoMap

/-- The request value `data` built by `JsonMap` and `JsonMapHttp` (the same statements in
both). `must` stays a nil slice when nothing is appended to it. -/
def searchData (query : String) (fields : List String) (from_ size : Int) (terms : GoMap)
    (mustNot filter sort : GoValue) : GoValue :=
  let must : List GoValue := []
  let must := if terms.length != 0 then must ++ [GoValue.map [("terms", GoValue.map terms)]]
    else must
  let must :=
    if query != "" then
      let multiMatch : GoMap := [("query", GoValue.str query)]
      let multiMatch :=
        if fields.length != 0 then multiMatch ++ [("fields", GoValue.list (fields.map GoValue.str))]
        else multiMatch
      must ++ [GoValue.map [("multi_match", GoValue.map multiMatch)]]
    else must
  GoValue.map
    [("from", GoValue.int from_), ("size", GoValue.int size), ("sort", sort),
     ("query", GoValue.map [("bool", GoValue.map
        [("must", if must.isEmpty then GoValue.nil else GoValue.list must),
         ("must_not", mustNot), ("filter", filter)])])]

/-- The address `self.host + "/" + index + "/" + typ + "/_search"`. -/
def searchUrl (self : Elastic) (index typ : String) : String :=
  self.host ++ "/" ++ index ++ "/" ++ typ ++ "/_search"

/-- How a raw-JSON search ends: with a map (none for nil), or with a panic. -/
inductive EsOutcome where
  | returned (ret : Option GoMap)
  | panicked (v : Fault)

/-- The method `(self *Elastic) JsonMap(...)`; the text printed by `fmt.Println` is not kept. -/
def Elastic.JsonMap (env : EsEnv) (self : Elastic) (index typ query : String)
    (fields : List String) (from_ size : Int) (terms : GoMap) (mustNot filter sort : GoValue)
    (logHeader : Option LogFormat) (w : World) : EsOutcome × World :=
  let data := searchData query fields from_ size terms mustNot filter sort
  match env.post (searchUrl self index typ) data with
  | HttpResult.fault v _ => (EsOutcome.panicked v, w)
  | HttpResult.response _ b =>
    match env.JsonToMap b with
    | Except.error v => (EsOutcome.panicked v, w)
    | Except.ok ret =>
      if (ret.index "error").isNil = false then
        let w := logf Level.error logHeader b [] w
        (EsOutcome.panicked ⟨"es error"⟩, w)
      else (EsOutcome.returned (some ret), w)

/-- The statement text `fmt.Sprintf("esUri:%s, index:%s, type:%s, query:%s", ...)`. -/
def esStatement (self : Elastic) (index typ query : String) : String :=
  "esUri:" ++ self.host ++ ", index:" ++ index ++ ", type:" ++ typ ++ ", query:" ++ query

/-- The deferred closure of `JsonMapHttp` (lines 397-416). It reads the variable `span`, which
holds the second span by the time the closure runs. -/
def JsonMapHttp.logDeferred (env : EsEnv) (statement : String) (span : Nat) (startAt : Int)
    (err : Option GoError) (logFormat : LogFormat) (w : World) : LogFormat × World :=
  let (endAt, w) := timeNow env.clock w
  let logFormat := { logFormat with StartTime := startAt }
  let logFormat := { logFormat with EndTime := endAt }
  let latencyTime := durationMicroseconds (timeSub logFormat.EndTime logFormat.StartTime)
  let logFormat := { logFormat with LatencyTime := latencyTime }
  let w := SetTag span "error" (TagValue.bool err.isSome) w
  let w := SetTag span "es.type" (TagValue.str "search") w
  let w := SetTag span "es.statement" (TagValue.str statement) w
  let w :=
    match err with
    | some e =>
      logf Level.error (some logFormat) "%s:[%s], error: %s"
        [LogArg.str "es_search", LogArg.str statement, LogArg.err e] w
    | none => logf Level.warn (some logFormat) statement [] w
  ({ logFormat with Module := "databus/es" }, w)

/-- The deferred calls of `JsonMapHttp` in the order Go runs them on the way out:
`span.Finish()` of line 423 (second span), the closure of lines 397-416, `span.Finish()` of
line 396 (bound to the first span when it was deferred), and the restore of line 394. -/
def JsonMapHttp.unwind (env : EsEnv) (statement : String) (span1 span2 : Nat) (startAt : Int)
    (lastModule : String) (err : Option GoError) (logFormat : LogFormat) (w : World) :
    LogFormat × World :=
  let w := Finish span2 w
  let (logFormat, w) := JsonMapHttp.logDeferred env statement span2 startAt err logFormat w
  let w := Finish span1 w
  ({ logFormat with Module := lastModule }, w)

/-- The method `(self *Elastic) JsonMapHttp(..., logHeader, ctx)`. The result carries the
context again because the log header it points to is written through the pointer. -/
def Elastic.JsonMapHttp (env : EsEnv) (self : Elastic) (index typ query : String)
    (fields : List String) (from_ size : Int) (terms : GoMap) (mustNot filter sort : GoValue)
    (logHeader : Option LogFormat) (ctx : Context) (w : World) : EsOutcome × Context × World :=
  let parent := ctx.span
  let statement := esStatement self index typ query
  let (span1, w) := StartSpan "es_search" parent w
  let (startAt, w) := timeNow env.clock w
  match ctx.logHeader with
  | none =>
    -- `logFormat.Module` on a nil pointer: the run-time panic comes before any `defer`
    (EsOutcome.panicked ⟨"runtime error: invalid memory address or nil pointer dereference"⟩,
     ctx, w)
  | some logFormat =>
    let lastModule := logFormat.Module
    -- defer restore (394); defer span.Finish() (396); defer closure (397)
    let (span2, w) := StartSpan "esDo" parent w
    -- defer span.Finish() (423)
    let w := SetTag span2 "db.type" (TagValue.str "redis") w
    let w := SetTag span2 "db.statement" (TagValue.str statement) w
    let w := SetTag span2 "error" (TagValue.bool false) w
    let data := searchData query fields from_ size terms mustNot filter sort
    match env.post (searchUrl self index typ) data with
    | HttpResult.fault v err =>
      let (logFormat, w) :=
        JsonMapHttp.unwind env statement span1 span2 startAt lastModule err logFormat w
      (EsOutcome.panicked v, { ctx with logHeader := some logFormat }, w)
    | HttpResult.response _ b =>
      match env.JsonToMap b with
      | Except.error v =>
        let (logFormat, w) :=
          JsonMapHttp.unwind env statement span1 span2 startAt lastModule none logFormat w
        (EsOutcome.panicked v, { ctx with logHeader := some logFormat }, w)
      | Except.ok ret =>
        if (ret.index "error").isNil = false then
          let err : Option GoError := some ⟨b⟩
          let w := logf Level.error logHeader b [] w
          let (logFormat, w) :=
            JsonMapHttp.unwind env statement span1 span2 startAt lastModule err logFormat w
          (EsOutcome.returned none, { ctx with logHeader := some logFormat }, w)
        else
          let (logFormat, w) :=
            JsonMapHttp.unwind env statement span1 span2 startAt lastModule none logFormat w
          (EsOutcome.returned (some ret), { ctx with logHeader := some logFormat }, w)

/-! ## `middlewares/panic/panic_middleware.go` -/

/-- A Go `map[string]string` or header set, as an association list. -/
abbrev StrMap := List (String × String)

/-- Go map indexing `m[k]` on a `map[string]string`: the empty string when the key is absent. -/
def StrMap.index (m : StrMap) (k : String) : String :=
  (m.lookup k).getD ""

/-- Go map assignment `m[k] = v`. -/
def StrMap.set (m : StrMap) (k v : String) : StrMap :=
  (k, v) :: m.filter (fun kv => kv.1 != k)

/-- What has gone out to the client: the status line, the header block sent with it, and the
body bytes so far. -/
structure Wire where
  status : Int
  header : StrMap
  body : String
  deriving DecidableEq, Repr

/-- The response writer of the web framework: the status code it holds, the header map
`Header()`, and what has gone out to the client (none while nothing was written). The status
line and the header block go out with the first write; what is done to the status code or to
the header map after that does not reach the client. -/
structure ResponseWriter where
  status : Int
  header : StrMap
  wire : Option Wire
  deriving DecidableEq, Repr

/-- The body bytes the client has received so far. -/
def ResponseWriter.body (w : ResponseWriter) : String :=
  (w.wire.map Wire.body).getD ""

/-- Writing bytes to the client: the number of bytes written and the writer afterwards. The
first write sends the status line and the header block as they stand at that moment. -/
def ResponseWriter.Write (w : ResponseWriter) (b : String) : Nat × ResponseWriter :=
  match w.wire with
  | none =>
    (b.utf8ByteSize,
     { w with wire := some { status := w.status, header := w.header, body := b } })
  | some sent =>
    (b.utf8ByteSize, { w with wire := some { sent with body := sent.body ++ b } })

/-- The call `WriteHeader(code)` on the writer of the framework: the status code is taken as
long as nothing was written; afterwards the status stays as it was sent. -/
def ResponseWriter.WriteHeader (w : ResponseWriter) (code : Int) : ResponseWriter :=
  if 0 < code ∧ w.status ≠ code ∧ w.wire = none then { w with status := code } else w

/-- The content type is put into the header map unless the map has one already (the
`writeContentType` step of a rendering). -/
def ResponseWriter.writeContentType (w : ResponseWriter) (value : String) : ResponseWriter :=
  if (w.header.lookup "Content-Type").isNone then
    { w with header := w.header.set "Content-Type" value }
  else w

/-- A value of the interface `gin.ResponseWriter` as held in `c.Writer`: the writer that the
framework provides, or the Go type `bodyLogWriter` (an embedded `gin.ResponseWriter` and the buffer
`body`). -/
inductive Writer where
  | framework (w : ResponseWriter)
  | bodyLogWriter (ResponseWriter : Writer) (body : String)
  deriving DecidableEq, Repr

/-- The call `w.Write(b)` on a `gin.ResponseWriter`. The second case is the method
`bodyLogWriter.Write`: `w.body.Write(b)`, then `w.ResponseWriter.Write(b)`, whose byte count
is returned. -/
def Writer.Write : Writer → String → Nat × Writer
  | Writer.framework w, b => ((w.Write b).1, Writer.framework (w.Write b).2)
  | Writer.bodyLogWriter inner body, b =>
    let body := body ++ b
    ((inner.Write b).1, Writer.bodyLogWriter (inner.Write b).2 body)

/-- The writer of the framework underneath; its field `wire` is what the client receives. -/
def Writer.client : Writer → ResponseWriter
  | Writer.framework w => w
  | Writer.bodyLogWriter inner _ => inner.client

/-- The text `w.body.String()` of a `bodyLogWriter`. -/
def Writer.bodyString : Writer → String
  | Writer.framework _ => ""
  | Writer.bodyLogWriter _ body => body

/-- The call `c.Writer.Status()` (promoted from the embedded writer for a `bodyLogWriter`). -/
def Writer.Status (w : Writer) : Int := w.client.status

/-- The call `c.Writer.WriteHeader(code)` (promoted from the embedded writer for a `bodyLogWriter`). -/
def Writer.WriteHeader : Writer → Int → Writer
  | Writer.framework w, code => Writer.framework (w.WriteHeader code)
  | Writer.bodyLogWriter inner body, code => Writer.bodyLogWriter (inner.WriteHeader code) body

/-- The content type step of a rendering on `c.Writer` (the header map is the one of the
writer of the framework). -/
def Writer.writeContentType : Writer → String → Writer
  | Writer.framework w, value => Writer.framework (w.writeContentType value)
  | Writer.bodyLogWriter inner body, value =>
    Writer.bodyLogWriter (inner.writeContentType value) body

/-- The call `c.Writer.Header().Set(k, v)` with the header name `k` in canonical form: the
header map changes; a header block that has gone out already stays as it was sent. -/
def Writer.setHeader : Writer → String → String → Writer
  | Writer.framework w, k, v => Writer.framework { w with header := w.header.set k v }
  | Writer.bodyLogWriter inner body, k, v => Writer.bodyLogWriter (inner.setHeader k v) body

/-- The inbound request `c.Request`. `Body` is none for a nil body, else the bytes not yet
read; `Query` holds the parsed query parameters; `ctx` is `c.Request.Context()`. -/
structure Request where
  Method : String
  RequestURI : String
  RawQuery : String
  Query : StrMap
  Header : StrMap
  Body : Option String
  ctx : Context
  deriving DecidableEq, Repr

/-- The per-request context `*gin.Context` of the framework. -/
structure GinContext where
  Request : Request
  Writer : Writer
  ClientIP : String
  deriving DecidableEq, Repr

/-- The configuration handed to `log.Init`. -/
structure LogConfig where
  File : String
  Path : String
  Mode : Int
  AsyncFormatter : Bool
  Debug : Bool
  deriving DecidableEq, Repr

/-- The record written by `log.Error(dst, map[string]interface{}{...})` in `ThrowPanic`. -/
structure PanicRecord where
  header : LogFormat
  requestHeader : StrMap
  requestBody : GoMap
  responseBody : GoMap
  uriQuery : GoValue
  err : Fault
  trace : List (Nat × String)

/-- What `ThrowPanic` changes outside the request: the clock position, the `log.Init` calls
and the diagnostic records written. -/
structure PanicWorld where
  ticks : Nat
  inits : List (LogConfig × String × String)
  records : List PanicRecord

/-- The surroundings of the middleware. -/
structure PanicEnv where
  /-- The constant `codes.SERVER_ERROR`. -/
  SERVER_ERROR : Int
  /-- The table `codes.ErrorMsg`. -/
  ErrorMsg : Int → String
  /-- The table `codes.ErrorUserMsg`. -/
  ErrorUserMsg : Int → String
  /-- The JSON rendering used by `c.JSON`. -/
  marshal : GoValue → String
  /-- The text of `debug.Stack()`. -/
  stack : String
  /-- The helper `util.CreateDateDir`. -/
  CreateDateDir : String → String → String
  /-- The helper `util.HostName()`. -/
  HostName : String
  /-- The helper `util.RandomN`. -/
  RandomN : Int → Int
  /-- The id `log.NewObjectId().Hex()` generated for this request. -/
  NewObjectIdHex : String
  /-- The helper `xhop.NextXhop`. -/
  NextXhop : StrMap → String → XHop
  /-- The n-th reading of `time.Now()`, in nanoseconds. -/
  clock : Nat → Int
  /-- The helper `conversion.JsonToMap`: the decoded map, or the panic it raises. -/
  JsonToMap : String → Except Fault GoMap
  /-- The helper `url.ParseUriQueryToMap`. -/
  ParseUriQueryToMap : String → GoValue
  /-- The canonical form of a header name (`textproto.CanonicalMIMEHeaderKey`). -/
  canonicalKey : String → String

/-- The call `c.Query(key)`: the value of the query parameter, or the empty string. -/
def GinContext.Query (c : GinContext) (key : String) : String :=
  c.Request.Query.index key

/-- The call `c.Request.Header.Get(key)`: the value stored under the canonical name, or the empty
string. -/
def headerGet (canon : String → String) (h : StrMap) (key : String) : String :=
  h.index (canon key)

/-- The failure payload of `ThrowPanic` (lines 34-39). -/
def failurePayload (env : PanicEnv) : GoValue :=
  GoValue.map
    [("errno", GoValue.int env.SERVER_ERROR),
     ("errmsg", GoValue.str (env.ErrorMsg env.SERVER_ERROR)),
     ("data", GoValue.map []),
     ("user_msg", GoValue.str (env.ErrorUserMsg env.SERVER_ERROR))]

/-- The call `c.JSON(code, obj)`: the status is set, the content type is put into the header
map, and the rendering of `obj` is written. -/
def GinContext.JSON (env : PanicEnv) (c : GinContext) (code : Int) (obj : GoValue) :
    GinContext :=
  let writer := c.Writer.WriteHeader code
  let writer := writer.writeContentType "application/json; charset=utf-8"
  { c with Writer := (writer.Write (env.marshal obj)).2 }

/-- The numbered lines of a text: `for k, v := range strings.Split(s, "\n")`. -/
def numberedLines (s : String) : List (Nat × String) :=
  (s.splitOn "\n").enum

/-- How the handler of the middleware ends: normally, or with a panic raised inside the deferred
recovery function itself. -/
inductive PanicOutcome where
  | completed
  | escaped (v : Fault)

/-- The branch `if err := recover(); err != nil` of the deferred function of `ThrowPanic`
(lines 34-115), for the recovered value `err`. -/
def recoveredBranch (env : PanicEnv) (port : Int) (logFields : StrMap) (dir : String)
    (area : Int) (productName moduleName envName : String) (err : Fault) (c : GinContext)
    (w : PanicWorld) : PanicOutcome × GinContext × PanicWorld :=
  let c := c.JSON env 500 (failurePayload env)
  let debugStack := numberedLines env.stack
  let file := env.CreateDateDir dir (moduleName ++ ".err." ++ env.HostName ++ ".")
  let file := file ++ "/" ++ toString (env.RandomN area)
  let w := { w with inits := w.inits ++
    [(LogConfig.mk file dir 1 false true, dir, file)] }
  let logID :=
    if c.Query (logFields.index "query_id") != "" then c.Query (logFields.index "query_id")
    else if headerGet env.canonicalKey c.Request.Header (logFields.index "header_id") != "" then
      headerGet env.canonicalKey c.Request.Header (logFields.index "header_id")
    else env.NewObjectIdHex
  -- `dst` starts as a copy of the zero header; lines 72-80 assign nine of its fields
  let dst : LogFormat :=
    { LogFormat.zero with
      Port := port, LogId := logID, Method := c.Request.Method, CallerIp := c.ClientIP,
      UriPath := c.Request.RequestURI,
      XHop := env.NextXhop c.Request.Header (logFields.index "header_hop"),
      Product := productName, Module := moduleName, Env := envName }
  let c := { c with Writer :=
    c.Writer.setHeader (env.canonicalKey (logFields.index "header_id")) dst.LogId }
  let c := { c with Writer :=
    c.Writer.setHeader (env.canonicalKey (logFields.index "header_hop")) dst.XHop.text }
  let reqBody := c.Request.Body.getD ""
  let strReqBody := reqBody
  let responseWriter := Writer.bodyLogWriter c.Writer ""
  let c := { c with Writer := responseWriter }
  let now := env.clock w.ticks
  let w := { w with ticks := w.ticks + 1 }
  let dst := { dst with StartTime := now }
  let dst := { dst with HttpCode := c.Writer.Status }
  -- the request context holds the pointer `dst`, so it sees every write to it
  let c := { c with Request :=
    { c.Request with Body := some reqBody, ctx := { c.Request.ctx with logHeader := some dst } } }
  let responseBody := responseWriter.bodyString
  match env.JsonToMap strReqBody with
  | Except.error v => (PanicOutcome.escaped v, c, w)
  | Except.ok requestBody =>
    match env.JsonToMap responseBody with
    | Except.error v => (PanicOutcome.escaped v, c, w)
    | Except.ok responseBodyMap =>
      let record : PanicRecord :=
        { header := dst, requestHeader := c.Request.Header, requestBody := requestBody,
          responseBody := responseBodyMap,
          uriQuery := env.ParseUriQueryToMap c.Request.RawQuery, err := err,
          trace := debugStack }
      (PanicOutcome.completed, c, { w with records := w.records ++ [record] })

/-- The handler returned by `ThrowPanic(port, logFields, dir, area, productName, moduleName,
env)`. `next` is `c.Next()`: the rest of the handler chain, which leaves the request context
and the world changed and either returns or panics with a value. -/
def ThrowPanic (env : PanicEnv) (port : Int) (logFields : StrMap) (dir : String) (area : Int)
    (productName moduleName envName : String)
    (next : GinContext → PanicWorld → Option Fault × GinContext × PanicWorld)
    (c : GinContext) (w : PanicWorld) : PanicOutcome × GinContext × PanicWorld :=
  match next c w with
  | (none, c, w) => (PanicOutcome.completed, c, w)
  | (some err, c, w) =>
    recoveredBranch env port logFields dir area productName moduleName envName
      err c w


/-! ## Example inputs -/

/-- Settings with verbose call logging switched on. -/
def sampleConfig : Config :=
  { Host := "127.0.0.1", Port := 6379, Password := "", DB := 0, MaxActive := 8, MaxIdle := 4,
    IsLog := true }

/-- A client on pool 0. -/
def sampleDb : RedisDB := { pool := 0, Config := sampleConfig }

/-- A log header as a request would carry it. -/
def sampleHeader : LogFormat :=
  { LogFormat.zero with
    LogId := "abc123", Module := "app", StartTime := 5, EndTime := 9, XHop := ⟨"1.2"⟩ }

/-- A context with a log header and no span. -/
def sampleCtx : Context := { span := none, logHeader := some sampleHeader }

/-- The rendering of strings and integers by `fmt.Sprint`. -/
def sampleSprint : GoValue → String
  | GoValue.str s => s
  | GoValue.int n => toString n
  | _ => "?"

/-- The configuration section of the sample client. -/
def sampleFileCfg : FileCfg :=
  { host := "127.0.0.1", port := (6379, none), auth := "", db := (0, none),
    max_active := (8, none), max_idle := (4, none), is_log := (true, none) }

/-- A clock whose readings are 1000000, 2007000, 3014000, ... nanoseconds. -/
def sampleClock (n : Nat) : Int := 1000000 * (n + 1) + 7000 * n

/-- A backend that answers `GET` with a value and fails every other command. -/
def sampleEnv : RedisEnv :=
  { clock := sampleClock,
    backend := fun _ cmd _ =>
      if cmd = "GET" then ConnResult.done (GoValue.str "v") none
      else ConnResult.done GoValue.nil (some ⟨"ERR unknown command"⟩),
    fmtSprint := sampleSprint,
    getConfig := fun _ => sampleFileCfg,
    must := fun e => some ⟨e.text⟩,
    NewLog := LogFormat.zero,
    NewXhopNull := ⟨"null"⟩ }

/-- A backend that cannot be reached: every command, `PING` included, ends with the dial
error. -/
def unreachableEnv : RedisEnv :=
  { clock := sampleClock,
    backend := fun _ _ _ =>
      ConnResult.done GoValue.nil (some ⟨"dial tcp 127.0.0.1:6379: connect: connection refused"⟩),
    fmtSprint := sampleSprint,
    getConfig := fun _ => sampleFileCfg,
    must := fun e => some ⟨e.text⟩,
    NewLog := LogFormat.zero,
    NewXhopNull := ⟨"null"⟩ }

/-- A search client. -/
def sampleEs : Elastic := { Client := 0, host := "http://es:9200" }

/-- A response body with an embedded error. -/
def errorBody : String :=
  "\x7b\"error\":\x7b\"type\":\"parsing_exception\"\x7d,\"status\":400\x7d"

/-- A response body of a search without hits. -/
def hitsBody : String := "\x7b\"hits\":\x7b\"total\":0\x7d\x7d"

/-- A response body whose top-level `error` field is JSON null. -/
def nullErrorBody : String := "\x7b\"error\":null\x7d"

/-- The decoding of the three sample bodies by `encoding/json`. -/
def sampleJsonToMap (s : String) : Except Fault GoMap :=
  if s = errorBody then
    Except.ok [("error", GoValue.map [("type", GoValue.str "parsing_exception")]),
               ("status", GoValue.int 400)]
  else if s = hitsBody then Except.ok [("hits", GoValue.map [("total", GoValue.int 0)])]
  else if s = nullErrorBody then Except.ok [("error", GoValue.nil)]
  else Except.error ⟨"invalid character"⟩

/-- A search backend that answers every request with the given status and body. -/
def sampleEsEnv (status : Nat) (body : String) : EsEnv :=
  { clock := sampleClock,
    post := fun _ _ => HttpResult.response status body,
    JsonToMap := sampleJsonToMap }

/-- A JSON rendering of scalars; composite values inside a map are not spelled out. -/
def sampleMarshalScalar : GoValue → String
  | GoValue.nil => "null"
  | GoValue.bool b => toString b
  | GoValue.int n => toString n
  | GoValue.str s => "\"" ++ s ++ "\""
  | GoValue.list _ => "[]"
  | GoValue.map _ => "\x7b\x7d"

/-- A JSON rendering of a map of scalars. -/
def sampleMarshal : GoValue → String
  | GoValue.map kvs =>
    "\x7b" ++ ",".intercalate (kvs.map (fun kv => "\"" ++ kv.1 ++ "\":" ++ sampleMarshalScalar kv.2))
      ++ "\x7d"
  | v => sampleMarshalScalar v

/-- The failure payload as the sample rendering writes it. -/
def sampleFailureText : String :=
  "\x7b\"errno\":500,\"errmsg\":\"server error\",\"data\":\x7b\x7d,\"user_msg\":\"try again later\"\x7d"

/-- A decoder that knows the empty text and the failure payload. -/
def samplePanicJsonToMap (s : String) : Except Fault GoMap :=
  if s = "" then Except.ok []
  else if s = sampleFailureText then
    Except.ok [("errno", GoValue.int 500), ("errmsg", GoValue.str "server error"),
               ("data", GoValue.map []), ("user_msg", GoValue.str "try again later")]
  else Except.error ⟨"invalid character"⟩

/-- The surroundings of the middleware in the examples. -/
def samplePanicEnv : PanicEnv :=
  { SERVER_ERROR := 500,
    ErrorMsg := fun _ => "server error",
    ErrorUserMsg := fun _ => "try again later",
    marshal := sampleMarshal,
    stack := "goroutine 1 [running]:\nmain.handler()",
    CreateDateDir := fun dir name => dir ++ "/20201231/" ++ name,
    HostName := "web1",
    RandomN := fun _ => 3,
    NewObjectIdHex := "5fedcba98765432112345678",
    NextXhop := fun _ _ => ⟨"1"⟩,
    clock := sampleClock,
    JsonToMap := samplePanicJsonToMap,
    ParseUriQueryToMap := fun _ => GoValue.map [],
    canonicalKey := fun k => k }

/-- The names of the request-id parameter and of the two trace headers. -/
def sampleLogFields : StrMap :=
  [("query_id", "logid"), ("header_id", "X-Request-Id"), ("header_hop", "X-Hop")]

/-- A request without body, request id or upstream hop, and a writer nothing was sent to. -/
def sampleGin : GinContext :=
  { Request :=
      { Method := "GET", RequestURI := "/ping", RawQuery := "", Query := [], Header := [],
        Body := none, ctx := { span := none, logHeader := none } },
    Writer := Writer.framework { status := 200, header := [], wire := none },
    ClientIP := "10.0.0.1" }

/-- A handler chain that panics straight away with the given value. -/
def panickingNext (v : Fault) (c : GinContext) (w : PanicWorld) :
    Option Fault × GinContext × PanicWorld :=
  (some v, c, w)

/-- A handler chain that writes the bytes "partial" to the response and then panics with the
given value. -/
def writingNext (v : Fault) (c : GinContext) (w : PanicWorld) :
    Option Fault × GinContext × PanicWorld :=
  (some v, { c with Writer := (c.Writer.Write "partial").2 }, w)

/-- A world of the middleware in which nothing has happened yet. -/
def PanicWorld.init : PanicWorld := { ticks := 0, inits := [], records := [] }

/-- A search backend on `http://es:9200` that answers every probe. -/
def sampleInitEnv : InitEnv :=
  { getConfig := fun _ => ("http://es", "9200"),
    NewClient := fun _ => none,
    Ping := fun _ => none,
    ElasticsearchVersion := fun _ => none }

/-- A request that carries the request id "q-77" in the query parameter `logid` and the
request id "h-42" in the header `X-Request-Id`. -/
def sampleGinWithIds : GinContext :=
  { sampleGin with
    Request := { sampleGin.Request with
      RawQuery := "logid=q-77", Query := [("logid", "q-77")],
      Header := [("X-Request-Id", "h-42")] } }

/-! ## Facts about the tracer model -/

theorem modifySpan_append_length (f : Span → Span) (l : List Span) (s : Span) :
    modifySpan l.length f (l ++ [s]) = l ++ [f s] := by
  induction l with
  | nil => rfl
  | cons a l ih => simp [modifySpan, ih]

/-! ## `Conn`: the reachability probe -/

/-- C1 (code evaluated at the failing input). With an empty registry and a backend that
answers `PING` with the dial error, `Conn("default")` returns a client and a nil error and
stores the client under the name, and no connection was borrowed and no command was sent:
`Do` returns at once for the command `PING`. -/
theorem Conn_unreachable_backend_registers_client :
    unreachableEnv.backend 0 "PING" [] =
      ConnResult.done GoValue.nil
        (some ⟨"dial tcp 127.0.0.1:6379: connect: connection refused"⟩) ∧
    (match Conn unreachableEnv "default" [] World.init with
     | (ConnOutcome.returned db err, obj, w) =>
        db = some sampleDb ∧ err = none ∧ obj.lookup "default" = some sampleDb ∧
        w.borrowed = [] ∧ w.calls = []
     | _ => False) := by
  refine ⟨rfl, ?_⟩
  simp [Conn, unreachableEnv, sampleFileCfg, RedisDB.Do, World.init, Registry.set, sampleDb,
    sampleConfig]

/-! ## `RedisDB.Do` -/

/-- C2. Whatever the backend does with the command (reply, error, panic), the log header of
the context has the same module label, start time, end time and hop id after `Do` as
before. -/
theorem Do_restores_log_header (env : RedisEnv) (db : RedisDB) (ctx : Context)
    (commandName : String) (args : List GoValue) (w : World) (h : LogFormat)
    (hcmd : commandName ≠ "PING") (hctx : ctx.logHeader = some h) :
    ∃ h', (RedisDB.Do env db ctx commandName args w).2.1.logHeader = some h' ∧
      h'.Module = h.Module ∧ h'.StartTime = h.StartTime ∧ h'.EndTime = h.EndTime ∧
      h'.XHop = h.XHop := by
  simp only [RedisDB.Do, if_neg hcmd, poolGet, timeNow, connDo, StartSpan, SetTag, Finish,
    connClose, hctx]
  cases env.backend db.pool commandName args with
  | fault v => exact ⟨h, by simp [hctx]⟩
  | done reply err =>
    cases err <;> by_cases hl : db.Config.IsLog = true <;>
      simp [Do.logDeferred, Do.restoreDeferred, timeNow, logf, hl]

/-- C2 at a concrete call: a failing `SET` on the sample context. -/
theorem Do_restores_log_header_witness :
    ∃ h', (RedisDB.Do sampleEnv sampleDb sampleCtx "SET" [GoValue.str "k", GoValue.int 3]
        World.init).2.1.logHeader = some h' ∧
      h'.Module = sampleHeader.Module ∧ h'.StartTime = sampleHeader.StartTime ∧
      h'.EndTime = sampleHeader.EndTime ∧ h'.XHop = sampleHeader.XHop :=
  Do_restores_log_header sampleEnv sampleDb sampleCtx "SET" [GoValue.str "k", GoValue.int 3]
    World.init sampleHeader (by decide) rfl

/-- C8. A call of `Do` for a command other than `PING` takes one connection from the pool,
sends the command with its arguments once on that connection, gives that connection back
once, and ends the way the invocation ended: with the reply and error of the invocation, or with
its panic. -/
theorem Do_borrows_invokes_returns_once (env : RedisEnv) (db : RedisDB) (ctx : Context)
    (commandName : String) (args : List GoValue) (w : World) (hcmd : commandName ≠ "PING") :
    (RedisDB.Do env db ctx commandName args w).2.2.borrowed =
        w.borrowed ++ [PoolConn.mk db.pool w.borrowed.length] ∧
    (RedisDB.Do env db ctx commandName args w).2.2.calls =
        w.calls ++ [(PoolConn.mk db.pool w.borrowed.length, commandName, args)] ∧
    (RedisDB.Do env db ctx commandName args w).2.2.closed =
        w.closed ++ [PoolConn.mk db.pool w.borrowed.length] ∧
    (RedisDB.Do env db ctx commandName args w).1 =
        (match env.backend db.pool commandName args with
         | ConnResult.done reply err => DoOutcome.returned reply err
         | ConnResult.fault v => DoOutcome.panicked v) := by
  simp only [RedisDB.Do, if_neg hcmd, poolGet, timeNow, connDo, StartSpan, SetTag, Finish,
    connClose]
  cases env.backend db.pool commandName args with
  | fault v => simp
  | done reply err =>
    cases err <;> by_cases hl : db.Config.IsLog = true <;>
      simp [Do.logDeferred, timeNow, logf, hl]

/-- C8 at a concrete call: a failing `SET` on a fresh world. -/
theorem Do_borrows_invokes_returns_once_witness :
    (RedisDB.Do sampleEnv sampleDb sampleCtx "SET" [GoValue.str "k"] World.init).2.2.borrowed =
        [PoolConn.mk 0 0] ∧
    (RedisDB.Do sampleEnv sampleDb sampleCtx "SET" [GoValue.str "k"] World.init).2.2.calls =
        [(PoolConn.mk 0 0, "SET", [GoValue.str "k"])] ∧
    (RedisDB.Do sampleEnv sampleDb sampleCtx "SET" [GoValue.str "k"] World.init).2.2.closed =
        [PoolConn.mk 0 0] ∧
    (RedisDB.Do sampleEnv sampleDb sampleCtx "SET" [GoValue.str "k"] World.init).1 =
        DoOutcome.returned GoValue.nil (some ⟨"ERR unknown command"⟩) :=
  Do_borrows_invokes_returns_once sampleEnv sampleDb sampleCtx "SET" [GoValue.str "k"]
    World.init (by decide)

/-- C9. For the command `PING`, `Do` opens no span and writes no log record. For any other
command it writes exactly one record at error level, with the statement and the error as
operands, when the invocation returns an error; exactly one record at info level, with the
statement and the elapsed milliseconds as operands, when the invocation succeeds and
`Config.IsLog` is true; and no record when the invocation succeeds and `Config.IsLog` is
false. -/
theorem Do_log_records (env : RedisEnv) (db : RedisDB) (ctx : Context) (commandName : String)
    (args : List GoValue) (w : World) :
    (commandName = "PING" →
      (RedisDB.Do env db ctx commandName args w).2.2.spans = w.spans ∧
      (RedisDB.Do env db ctx commandName args w).2.2.logs = w.logs) ∧
    (commandName ≠ "PING" → ∀ reply e,
      env.backend db.pool commandName args = ConnResult.done reply (some e) →
      ∃ hdr, (RedisDB.Do env db ctx commandName args w).2.2.logs =
        w.logs ++ [LogRecord.mk Level.error (some hdr) "redis do:[%s], error: %s"
          [LogArg.str (commandName ++ " " ++ " ".intercalate (args.map env.fmtSprint)),
           LogArg.err e]]) ∧
    (commandName ≠ "PING" → ∀ reply,
      env.backend db.pool commandName args = ConnResult.done reply none →
      db.Config.IsLog = true →
      ∃ hdr, (RedisDB.Do env db ctx commandName args w).2.2.logs =
        w.logs ++ [LogRecord.mk Level.info (some hdr) "redis do:[%s], used: %d milliseconds"
          [LogArg.str (commandName ++ " " ++ " ".intercalate (args.map env.fmtSprint)),
           LogArg.int (durationMilliseconds
             (timeSub (env.clock (w.ticks + 1)) (env.clock w.ticks)))]]) ∧
    (commandName ≠ "PING" → ∀ reply,
      env.backend db.pool commandName args = ConnResult.done reply none →
      db.Config.IsLog = false →
      (RedisDB.Do env db ctx commandName args w).2.2.logs = w.logs) := by
  refine ⟨?_, ?_, ?_, ?_⟩
  · intro hcmd
    simp [RedisDB.Do, hcmd]
  · intro hcmd reply e hres
    simp [RedisDB.Do, if_neg hcmd, poolGet, timeNow, connDo, StartSpan, SetTag, Finish,
      connClose, hres, Do.logDeferred, logf, statementOf]
  · intro hcmd reply hres hl
    simp [RedisDB.Do, if_neg hcmd, poolGet, timeNow, connDo, StartSpan, SetTag, Finish,
      connClose, hres, Do.logDeferred, logf, statementOf, hl]
  · intro hcmd reply hres hl
    simp [RedisDB.Do, if_neg hcmd, poolGet, timeNow, connDo, StartSpan, SetTag, Finish,
      connClose, hres, Do.logDeferred, logf, statementOf, hl]

/-- C9 at a concrete call: a failing `SET k 3` writes one error record. -/
theorem Do_log_records_witness :
    ∃ hdr, (RedisDB.Do sampleEnv sampleDb sampleCtx "SET" [GoValue.str "k", GoValue.int 3]
        World.init).2.2.logs =
      World.init.logs ++ [LogRecord.mk Level.error (some hdr) "redis do:[%s], error: %s"
        [LogArg.str ("SET" ++ " " ++
           " ".intercalate ([GoValue.str "k", GoValue.int 3].map sampleEnv.fmtSprint)),
         LogArg.err ⟨"ERR unknown command"⟩]] :=
  (Do_log_records sampleEnv sampleDb sampleCtx "SET" [GoValue.str "k", GoValue.int 3]
    World.init).2.1 (by decide) GoValue.nil ⟨"ERR unknown command"⟩ rfl

/-- C10 (the claim as stated fails). A successful `GET k` on the sample context takes 1007
microseconds by the clock; its one span is finished once, carrying the three tags `db.type`,
`db.statement` and `error`, and none of the tags it carries is the latency. -/
theorem Do_span_carries_no_latency_tag :
    (RedisDB.Do sampleEnv sampleDb sampleCtx "GET" [GoValue.str "k"] World.init).2.1.logHeader.map
        LogFormat.LatencyTime = some 1007 ∧
    (RedisDB.Do sampleEnv sampleDb sampleCtx "GET" [GoValue.str "k"] World.init).2.2.spans.map
        Span.finished =
      [[[("db.type", TagValue.str "redis"), ("db.statement", TagValue.str "GET k"),
         ("error", TagValue.bool false)]]] ∧
    ¬ ∃ s ∈ (RedisDB.Do sampleEnv sampleDb sampleCtx "GET" [GoValue.str "k"] World.init).2.2.spans,
        ∃ tags ∈ s.finished, ∃ k, (k, TagValue.int 1007) ∈ tags := by
  have hspans :
      (RedisDB.Do sampleEnv sampleDb sampleCtx "GET" [GoValue.str "k"] World.init).2.2.spans =
        [Span.mk "redisDo" none
          [("db.type", TagValue.str "redis"), ("db.statement", TagValue.str "GET k"),
           ("error", TagValue.bool false)]
          [[("db.type", TagValue.str "redis"), ("db.statement", TagValue.str "GET k"),
            ("error", TagValue.bool false)]]] := by decide
  refine ⟨by decide, by decide, ?_⟩
  rw [hspans]
  simp

/-- C10 (amended). When the invocation of a command other than `PING` returns, `Do` has
opened exactly one span, named `redisDo`, whose parent is the span of the context (a root
span when the context has none); the span is finished exactly once, and at that moment it
carries exactly three tags: `db.type` = "redis", `db.statement` = the command name, a space
and the arguments joined by spaces, and `error` = (the returned error is not nil). The
latency, end time minus start time in microseconds, is written to the log header: every
log record of the call shows it, and so does the header of the context afterwards. -/
theorem Do_span_and_latency (env : RedisEnv) (db : RedisDB) (ctx : Context)
    (commandName : String) (args : List GoValue) (w : World) (reply : GoValue)
    (err : Option GoError) (hcmd : commandName ≠ "PING")
    (hres : env.backend db.pool commandName args = ConnResult.done reply err) :
    (RedisDB.Do env db ctx commandName args w).2.2.spans =
      w.spans ++ [Span.mk "redisDo" ctx.span
        [("db.type", TagValue.str "redis"),
         ("db.statement",
           TagValue.str (commandName ++ " " ++ " ".intercalate (args.map env.fmtSprint))),
         ("error", TagValue.bool err.isSome)]
        [[("db.type", TagValue.str "redis"),
          ("db.statement",
            TagValue.str (commandName ++ " " ++ " ".intercalate (args.map env.fmtSprint))),
          ("error", TagValue.bool err.isSome)]]] ∧
    (∃ recs, (RedisDB.Do env db ctx commandName args w).2.2.logs = w.logs ++ recs ∧
      ∀ r ∈ recs, r.header.map LogFormat.LatencyTime =
        some (durationMicroseconds (timeSub (env.clock (w.ticks + 1)) (env.clock w.ticks)))) ∧
    (∀ h, ctx.logHeader = some h →
      (RedisDB.Do env db ctx commandName args w).2.1.logHeader.map LogFormat.LatencyTime =
        some (durationMicroseconds (timeSub (env.clock (w.ticks + 1)) (env.clock w.ticks)))) := by
  simp only [RedisDB.Do, if_neg hcmd, poolGet, timeNow, connDo, hres, StartSpan, SetTag, Finish,
    Do.logDeferred, connClose, logf]
  cases err <;> by_cases hl : db.Config.IsLog = true <;>
    simp [hl, modifySpan_append_length, setTagList, statementOf, Do.restoreDeferred] <;>
    exact fun h hh => ⟨h, hh⟩

/-- C10 (amended) at a concrete call: a successful `GET k` on the sample context. -/
theorem Do_span_and_latency_witness :
    (RedisDB.Do sampleEnv sampleDb sampleCtx "GET" [GoValue.str "k"] World.init).2.2.spans =
      [Span.mk "redisDo" none
        [("db.type", TagValue.str "redis"), ("db.statement", TagValue.str "GET k"),
         ("error", TagValue.bool false)]
        [[("db.type", TagValue.str "redis"), ("db.statement", TagValue.str "GET k"),
          ("error", TagValue.bool false)]]] :=
  (Do_span_and_latency sampleEnv sampleDb sampleCtx "GET" [GoValue.str "k"] World.init
    (GoValue.str "v") none (by decide) rfl).1

/-! ## `Elastic.JsonMapHttp` and `Elastic.JsonMap` -/

/-- C3 (code evaluated at the failing input). A successful raw-JSON search on a context whose
log header has module "app", start time 5 and end time 9 returns the decoded map and leaves
the module label at "app", but the start and end time of the header are now the two clock
readings of the call: only the module label is put back. -/
theorem JsonMapHttp_leaves_timing_overwritten :
    (Elastic.JsonMapHttp (sampleEsEnv 200 hitsBody) sampleEs "idx" "doc" "q" [] 0 10 []
        GoValue.nil GoValue.nil GoValue.nil (some sampleHeader) sampleCtx World.init).1 =
      EsOutcome.returned (some [("hits", GoValue.map [("total", GoValue.int 0)])]) ∧
    sampleCtx.logHeader.map (fun h => (h.Module, h.StartTime, h.EndTime)) =
      some ("app", 5, 9) ∧
    (Elastic.JsonMapHttp (sampleEsEnv 200 hitsBody) sampleEs "idx" "doc" "q" [] 0 10 []
        GoValue.nil GoValue.nil GoValue.nil (some sampleHeader) sampleCtx
        World.init).2.1.logHeader.map (fun h => (h.Module, h.StartTime, h.EndTime)) =
      some ("app", 1000000, 2007000) := by
  refine ⟨rfl, by decide, by decide⟩

/-- C4 (code evaluated at the failing input). A raw-JSON search whose response carries an
embedded error returns nil, and the tracer then holds two spans of the call: `es_search`,
finished once without any tag, and `esDo`, finished once with the tags `db.type`,
`db.statement` and `error` = false; the tags `error` = true, `es.type` and `es.statement`
reach `esDo` only after it was finished. -/
theorem JsonMapHttp_opens_two_spans :
    (Elastic.JsonMapHttp (sampleEsEnv 200 errorBody) sampleEs "idx" "doc" "q" [] 0 10 []
        GoValue.nil GoValue.nil GoValue.nil (some sampleHeader) sampleCtx World.init).1 =
      EsOutcome.returned none ∧
    (Elastic.JsonMapHttp (sampleEsEnv 200 errorBody) sampleEs "idx" "doc" "q" [] 0 10 []
        GoValue.nil GoValue.nil GoValue.nil (some sampleHeader) sampleCtx World.init).2.2.spans =
      [Span.mk "es_search" none [] [[]],
       Span.mk "esDo" none
        [("db.type", TagValue.str "redis"),
         ("db.statement", TagValue.str "esUri:http://es:9200, index:idx, type:doc, query:q"),
         ("error", TagValue.bool true),
         ("es.type", TagValue.str "search"),
         ("es.statement", TagValue.str "esUri:http://es:9200, index:idx, type:doc, query:q")]
        [[("db.type", TagValue.str "redis"),
          ("db.statement", TagValue.str "esUri:http://es:9200, index:idx, type:doc, query:q"),
          ("error", TagValue.bool false)]]] := by
  refine ⟨rfl, by decide⟩

/-- C5 (the claim as stated fails). The body with a top-level `error` field that is JSON null
decodes to a map that has the key `error`, yet neither search treats the call as failed:
`JsonMapHttp` returns the map instead of nil and `JsonMap` returns the map instead of
panicking, and nothing is logged through `logHeader`. -/
theorem null_error_field_is_not_a_failure :
    sampleJsonToMap nullErrorBody = Except.ok [("error", GoValue.nil)] ∧
    GoMap.hasKey [("error", GoValue.nil)] "error" = true ∧
    (Elastic.JsonMapHttp (sampleEsEnv 200 nullErrorBody) sampleEs "idx" "doc" "q" [] 0 10 []
        GoValue.nil GoValue.nil GoValue.nil (some sampleHeader) sampleCtx World.init).1 =
      EsOutcome.returned (some [("error", GoValue.nil)]) ∧
    Elastic.JsonMap (sampleEsEnv 200 nullErrorBody) sampleEs "idx" "doc" "q" [] 0 10 []
        GoValue.nil GoValue.nil GoValue.nil (some sampleHeader) World.init =
      (EsOutcome.returned (some [("error", GoValue.nil)]), World.init) := by
  refine ⟨rfl, by decide, rfl, rfl⟩

/-- C5 (amended). For a response with body `b` that decodes to the map `ret`, the raw-JSON
searches treat the call as failed exactly when `ret` has a top-level `error` field whose
value is not null. In that case `JsonMapHttp` logs `b` at error level through `logHeader` and
returns nil, and `JsonMap` logs `b` the same way and panics with "es error"; otherwise both
return `ret`. The HTTP status plays no part: a backend that sends the same body with another
status gives the same results. -/
theorem raw_search_failure_classification (env : EsEnv) (self : Elastic)
    (index typ query : String) (fields : List String) (from_ size : Int) (terms : GoMap)
    (mustNot filter sort : GoValue) (logHeader : Option LogFormat) (ctx : Context)
    (h : LogFormat) (w : World) (status : Nat) (b : String) (ret : GoMap)
    (hctx : ctx.logHeader = some h)
    (hpost : env.post (searchUrl self index typ)
      (searchData query fields from_ size terms mustNot filter sort) =
        HttpResult.response status b)
    (hdec : env.JsonToMap b = Except.ok ret) :
    ((∃ v, ret.lookup "error" = some v ∧ v.isNil = false) →
      (Elastic.JsonMapHttp env self index typ query fields from_ size terms mustNot filter sort
        logHeader ctx w).1 = EsOutcome.returned none ∧
      LogRecord.mk Level.error logHeader b [] ∈
        (Elastic.JsonMapHttp env self index typ query fields from_ size terms mustNot filter
          sort logHeader ctx w).2.2.logs ∧
      Elastic.JsonMap env self index typ query fields from_ size terms mustNot filter sort
        logHeader w =
          (EsOutcome.panicked ⟨"es error"⟩,
           { w with logs := w.logs ++ [LogRecord.mk Level.error logHeader b []] })) ∧
    ((¬ ∃ v, ret.lookup "error" = some v ∧ v.isNil = false) →
      (Elastic.JsonMapHttp env self index typ query fields from_ size terms mustNot filter sort
        logHeader ctx w).1 = EsOutcome.returned (some ret) ∧
      Elastic.JsonMap env self index typ query fields from_ size terms mustNot filter sort
        logHeader w = (EsOutcome.returned (some ret), w)) ∧
    (∀ (env' : EsEnv) (status' : Nat), env'.clock = env.clock →
      env'.JsonToMap = env.JsonToMap →
      env'.post (searchUrl self index typ)
        (searchData query fields from_ size terms mustNot filter sort) =
          HttpResult.response status' b →
      Elastic.JsonMapHttp env' self index typ query fields from_ size terms mustNot filter sort
          logHeader ctx w =
        Elastic.JsonMapHttp env self index typ query fields from_ size terms mustNot filter sort
          logHeader ctx w ∧
      Elastic.JsonMap env' self index typ query fields from_ size terms mustNot filter sort
          logHeader w =
        Elastic.JsonMap env self index typ query fields from_ size terms mustNot filter sort
          logHeader w) := by
  have hidx : (∃ v, ret.lookup "error" = some v ∧ v.isNil = false) ↔
      (GoMap.index ret "error").isNil = false := by
    unfold GoMap.index
    cases hl : List.lookup "error" ret with
    | none => simp [GoValue.isNil]
    | some v => simp
  refine ⟨?_, ?_, ?_⟩
  · intro hv
    have hf := hidx.mp hv
    simp [Elastic.JsonMapHttp, Elastic.JsonMap, hctx, hpost, hdec, hf, StartSpan, timeNow,
      SetTag, Finish, JsonMapHttp.unwind, JsonMapHttp.logDeferred, logf]
  · intro hv
    have hf : ¬ (GoMap.index ret "error").isNil = false := fun hf => hv (hidx.mpr hf)
    simp [Elastic.JsonMapHttp, Elastic.JsonMap, hctx, hpost, hdec, hf, StartSpan, timeNow,
      SetTag, Finish, JsonMapHttp.unwind, JsonMapHttp.logDeferred, logf]
  · intro env' status' hclock hjson hpost'
    simp [Elastic.JsonMapHttp, Elastic.JsonMap, hctx, hpost, hpost', hdec, hjson, hclock,
      JsonMapHttp.unwind, JsonMapHttp.logDeferred]

/-- C5 (amended) at a concrete response: the body with an embedded error, sent with status
200, makes `JsonMapHttp` return nil, and status 500 gives the same results. -/
theorem raw_search_failure_classification_witness :
    (Elastic.JsonMapHttp (sampleEsEnv 200 errorBody) sampleEs "idx" "doc" "q" [] 0 10 []
        GoValue.nil GoValue.nil GoValue.nil (some sampleHeader) sampleCtx World.init).1 =
      EsOutcome.returned none ∧
    Elastic.JsonMapHttp (sampleEsEnv 500 errorBody) sampleEs "idx" "doc" "q" [] 0 10 []
        GoValue.nil GoValue.nil GoValue.nil (some sampleHeader) sampleCtx World.init =
      Elastic.JsonMapHttp (sampleEsEnv 200 errorBody) sampleEs "idx" "doc" "q" [] 0 10 []
        GoValue.nil GoValue.nil GoValue.nil (some sampleHeader) sampleCtx World.init :=
  have key := raw_search_failure_classification (sampleEsEnv 200 errorBody) sampleEs "idx" "doc"
    "q" [] 0 10 [] GoValue.nil GoValue.nil GoValue.nil (some sampleHeader) sampleCtx sampleHeader
    World.init 200 errorBody
    [("error", GoValue.map [("type", GoValue.str "parsing_exception")]),
     ("status", GoValue.int 400)] rfl rfl rfl
  ⟨(key.1 ⟨GoValue.map [("type", GoValue.str "parsing_exception")], rfl, rfl⟩).1,
   (key.2.2 (sampleEsEnv 500 errorBody) 500 rfl rfl rfl).1⟩

/-! ## `ThrowPanic` -/

theorem Writer.client_WriteHeader (w : Writer) (code : Int) :
    (w.WriteHeader code).client = w.client.WriteHeader code := by
  induction w with
  | framework r => rfl
  | bodyLogWriter inner body ih => simpa [Writer.WriteHeader, Writer.client] using ih

theorem Writer.client_writeContentType (w : Writer) (value : String) :
    (w.writeContentType value).client = w.client.writeContentType value := by
  induction w with
  | framework r => rfl
  | bodyLogWriter inner body ih => simpa [Writer.writeContentType, Writer.client] using ih

theorem Writer.client_Write (w : Writer) (b : String) :
    (w.Write b).2.client = (w.client.Write b).2 := by
  induction w with
  | framework r => rfl
  | bodyLogWriter inner body ih => simpa [Writer.Write, Writer.client] using ih

theorem Writer.client_setHeader (w : Writer) (k v : String) :
    (w.setHeader k v).client = { w.client with header := w.client.header.set k v } := by
  induction w with
  | framework r => rfl
  | bodyLogWriter inner body ih => simpa [Writer.setHeader, Writer.client] using ih

theorem ResponseWriter.wire_JSON_of_unwritten (r : ResponseWriter) (code : Int) (b : String)
    (hcode : 0 < code) (hw : r.wire = none) :
    Option.map (fun sent => (sent.status, sent.body))
        (((r.WriteHeader code).writeContentType "application/json; charset=utf-8").Write b).2.wire =
      some (code, b) := by
  by_cases hs : r.status = code
  · by_cases hc : (r.header.lookup "Content-Type").isNone <;>
      simp [ResponseWriter.WriteHeader, ResponseWriter.writeContentType, ResponseWriter.Write,
        hw, hs, hc]
  · by_cases hc : (r.header.lookup "Content-Type").isNone <;>
      simp [ResponseWriter.WriteHeader, ResponseWriter.writeContentType, ResponseWriter.Write,
        hw, hs, hc, hcode]

/-- C6 (code evaluated at the failing input). A handler panics on the sample request. The
client receives the failure payload, but the `bodyLogWriter` is put in place only after the
payload was written, so its buffer is empty and the `responseBody` of the diagnostic record is the
decoding of the empty text, not of the payload. -/
theorem ThrowPanic_record_misses_response_body :
    (ThrowPanic samplePanicEnv 8080 sampleLogFields "/data/logs" 10 "shop" "api" "dev"
        (panickingNext ⟨"boom"⟩) sampleGin PanicWorld.init).2.1.Writer.client.body =
      sampleFailureText ∧
    (ThrowPanic samplePanicEnv 8080 sampleLogFields "/data/logs" 10 "shop" "api" "dev"
        (panickingNext ⟨"boom"⟩) sampleGin PanicWorld.init).2.1.Writer.bodyString = "" ∧
    (ThrowPanic samplePanicEnv 8080 sampleLogFields "/data/logs" 10 "shop" "api" "dev"
        (panickingNext ⟨"boom"⟩) sampleGin PanicWorld.init).2.2.records.map
        PanicRecord.responseBody = [[]] ∧
    samplePanicEnv.JsonToMap sampleFailureText =
      Except.ok [("errno", GoValue.int 500), ("errmsg", GoValue.str "server error"),
                 ("data", GoValue.map []), ("user_msg", GoValue.str "try again later")] := by
  refine ⟨by decide, by decide, rfl, rfl⟩

/-- C7 (the claim as stated fails). A handler chain writes the bytes "partial" to the sample
response, which goes out with status 200, and then panics. After the middleware has
recovered, the status on the wire is still 200 and the body the client received is "partial"
followed by the failure payload, which is not the failure payload. -/
theorem ThrowPanic_after_partial_write :
    (ThrowPanic samplePanicEnv 8080 sampleLogFields "/data/logs" 10 "shop" "api" "dev"
        (writingNext ⟨"boom"⟩) sampleGin PanicWorld.init).2.1.Writer.client.wire.map
        (fun sent => (sent.status, sent.body)) =
      some (200, "partial" ++ sampleFailureText) ∧
    samplePanicEnv.marshal (failurePayload samplePanicEnv) = sampleFailureText ∧
    "partial" ++ sampleFailureText ≠ sampleFailureText := by
  refine ⟨by decide, by decide, by decide⟩

/-- C7 (amended). When the handler chain panics before anything was written to the response,
the client receives the status 500 and, as the body, exactly the rendering of the map with
`errno` = `SERVER_ERROR`, `errmsg` = `ErrorMsg[SERVER_ERROR]`, `data` = the empty map and
`user_msg` = `ErrorUserMsg[SERVER_ERROR]`. In every case, whatever had been written before,
two chains that differ only in the value they panic with leave the same request context
behind: the same status, headers and body on the wire. -/
theorem ThrowPanic_fixed_failure_response (env : PanicEnv) (port : Int) (logFields : StrMap)
    (dir : String) (area : Int) (productName moduleName envName : String)
    (next₁ next₂ : GinContext → PanicWorld → Option Fault × GinContext × PanicWorld)
    (c c1 : GinContext) (w w1 : PanicWorld) (v₁ v₂ : Fault)
    (h₁ : next₁ c w = (some v₁, c1, w1)) (h₂ : next₂ c w = (some v₂, c1, w1)) :
    (c1.Writer.client.wire = none →
      (ThrowPanic env port logFields dir area productName moduleName envName next₁ c
          w).2.1.Writer.client.wire.map (fun sent => (sent.status, sent.body)) =
        some (500, env.marshal (GoValue.map
          [("errno", GoValue.int env.SERVER_ERROR),
           ("errmsg", GoValue.str (env.ErrorMsg env.SERVER_ERROR)),
           ("data", GoValue.map []),
           ("user_msg", GoValue.str (env.ErrorUserMsg env.SERVER_ERROR))]))) ∧
    (ThrowPanic env port logFields dir area productName moduleName envName next₂ c w).2.1 =
      (ThrowPanic env port logFields dir area productName moduleName envName next₁ c w).2.1 := by
  have hwire : c1.Writer.client.wire = none →
      (((((c1.Writer.WriteHeader 500).writeContentType "application/json; charset=utf-8").Write
          (env.marshal (failurePayload env))).2).client).wire.map
          (fun sent => (sent.status, sent.body)) =
        some (500, env.marshal (failurePayload env)) := by
    intro hw
    rw [Writer.client_Write, Writer.client_writeContentType, Writer.client_WriteHeader]
    exact ResponseWriter.wire_JSON_of_unwritten _ 500 _ (by decide) hw
  simp only [ThrowPanic, h₁, h₂, recoveredBranch, GinContext.JSON, Writer.bodyString]
  cases env.JsonToMap (c1.Request.Body.getD "") with
  | error v =>
    refine ⟨fun hw => ?_, rfl⟩
    simpa [Writer.client, Writer.client_setHeader, failurePayload] using hwire hw
  | ok requestBody =>
    cases env.JsonToMap "" with
    | error v =>
      refine ⟨fun hw => ?_, rfl⟩
      simpa [Writer.client, Writer.client_setHeader, failurePayload] using hwire hw
    | ok responseBody =>
      refine ⟨fun hw => ?_, rfl⟩
      simpa [Writer.client, Writer.client_setHeader, failurePayload] using hwire hw

/-- C7 (amended) at a concrete request: nothing was written to the sample response when the
handler panics with "boom"; the client receives status 500 and the failure payload, and a
panic with "assignment to entry in nil map" ends with the same request context. -/
theorem ThrowPanic_fixed_failure_response_witness :
    (ThrowPanic samplePanicEnv 8080 sampleLogFields "/data/logs" 10 "shop" "api" "dev"
        (panickingNext ⟨"boom"⟩) sampleGin PanicWorld.init).2.1.Writer.client.wire.map
        (fun sent => (sent.status, sent.body)) =
      some (500, samplePanicEnv.marshal (GoValue.map
        [("errno", GoValue.int samplePanicEnv.SERVER_ERROR),
         ("errmsg", GoValue.str (samplePanicEnv.ErrorMsg samplePanicEnv.SERVER_ERROR)),
         ("data", GoValue.map []),
         ("user_msg", GoValue.str (samplePanicEnv.ErrorUserMsg samplePanicEnv.SERVER_ERROR))])) ∧
    (ThrowPanic samplePanicEnv 8080 sampleLogFields "/data/logs" 10 "shop" "api" "dev"
        (panickingNext ⟨"assignment to entry in nil map"⟩) sampleGin PanicWorld.init).2.1 =
      (ThrowPanic samplePanicEnv 8080 sampleLogFields "/data/logs" 10 "shop" "api" "dev"
        (panickingNext ⟨"boom"⟩) sampleGin PanicWorld.init).2.1 :=
  have key := ThrowPanic_fixed_failure_response samplePanicEnv 8080 sampleLogFields "/data/logs"
    10 "shop" "api" "dev" (panickingNext ⟨"boom"⟩)
    (panickingNext ⟨"assignment to entry in nil map"⟩) sampleGin sampleGin PanicWorld.init
    PanicWorld.init ⟨"boom"⟩ ⟨"assignment to entry in nil map"⟩ rfl rfl
  ⟨key.1 rfl, key.2⟩

/-- C11 (code evaluated at the failing input). A handler panics on the request that carries
"q-77" in the query parameter `logid` and "h-42" in the header `X-Request-Id`, before anything
was written. The middleware picks "q-77": it is the `LogId` of the diagnostic record and of
the log header in the request context, and the header map of the writer holds it under
`X-Request-Id`. But the header block went out with the failure payload before the map was
changed: what the client received has the content type only and no `X-Request-Id`. -/
theorem ThrowPanic_request_id_misses_the_wire :
    (ThrowPanic samplePanicEnv 8080 sampleLogFields "/data/logs" 10 "shop" "api" "dev"
        (panickingNext ⟨"boom"⟩) sampleGinWithIds PanicWorld.init).2.2.records.map
        (fun r => r.header.LogId) = ["q-77"] ∧
    (ThrowPanic samplePanicEnv 8080 sampleLogFields "/data/logs" 10 "shop" "api" "dev"
        (panickingNext ⟨"boom"⟩) sampleGinWithIds
        PanicWorld.init).2.1.Request.ctx.logHeader.map LogFormat.LogId = some "q-77" ∧
    (ThrowPanic samplePanicEnv 8080 sampleLogFields "/data/logs" 10 "shop" "api" "dev"
        (panickingNext ⟨"boom"⟩) sampleGinWithIds
        PanicWorld.init).2.1.Writer.client.header.lookup "X-Request-Id" = some "q-77" ∧
    (ThrowPanic samplePanicEnv 8080 sampleLogFields "/data/logs" 10 "shop" "api" "dev"
        (panickingNext ⟨"boom"⟩) sampleGinWithIds
        PanicWorld.init).2.1.Writer.client.wire.map Wire.header =
      some [("Content-Type", "application/json; charset=utf-8")] ∧
    (ThrowPanic samplePanicEnv 8080 sampleLogFields "/data/logs" 10 "shop" "api" "dev"
        (panickingNext ⟨"boom"⟩) sampleGinWithIds
        PanicWorld.init).2.1.Writer.client.wire.map
        (fun sent => sent.header.lookup "X-Request-Id") = some none := by
  refine ⟨by decide, by decide, by decide, by decide, by decide⟩

/-! ## Facts about association lists -/

theorem lookup_filter_bne {β : Type} (l : List (String × β)) (k other : String)
    (hne : other ≠ k) :
    (l.filter (fun kv => kv.1 != k)).lookup other = l.lookup other := by
  induction l with
  | nil => rfl
  | cons a l ih =>
    obtain ⟨a1, a2⟩ := a
    by_cases hk : a1 = k
    · subst hk
      have h1 : (other == a1) = false := by simpa using hne
      simp [List.filter, List.lookup, h1, ih]
    · have h2 : (a1 != k) = true := by simpa using hk
      simp only [List.filter, h2, List.lookup]
      cases other == a1 <;> simp [ih]

/-! ## The two registries -/

theorem Conn_of_lookup_some (env : RedisEnv) (name : String) (obj : Registry) (w : World)
    (db : RedisDB) (hit : obj.lookup name = some db) :
    Conn env name obj w = (ConnOutcome.returned (some db) none, obj, w) := by
  simp [Conn, hit]

theorem Conn_lookup_other (env : RedisEnv) (name other : String) (obj : Registry) (w : World)
    (hne : other ≠ name) : (Conn env name obj w).2.1.lookup other = obj.lookup other := by
  have h1 : (other == name) = false := by simpa using hne
  unfold Conn
  cases hl : obj.lookup name with
  | some db => rfl
  | none =>
    cases hm : (env.getConfig name).is_log.2.bind env.must with
    | some v => simp [hm]
    | none =>
      simp [hm, RedisDB.Do, Registry.set, List.lookup, h1, lookup_filter_bne obj name other hne]

theorem Conn_lookup_keeps (env : RedisEnv) (name n : String) (obj : Registry) (w : World)
    (db : RedisDB) (hit : obj.lookup name = some db) :
    (Conn env n obj w).2.1.lookup name = some db := by
  by_cases hn : name = n
  · subst hn
    rw [Conn_of_lookup_some env name obj w db hit]
    exact hit
  · rw [Conn_lookup_other env n name obj w hn]
    exact hit

theorem ConnSeq_lookup_keeps (env : RedisEnv) (name : String) (db : RedisDB) (ns : List String) :
    ∀ (obj : Registry) (w : World), obj.lookup name = some db →
      (ConnSeq env ns obj w).1.lookup name = some db := by
  induction ns with
  | nil => intro obj w hit; exact hit
  | cons n ns ih =>
    intro obj w hit
    exact ih _ _ (Conn_lookup_keeps env name n obj w db hit)

theorem InitES_of_lookup_some (env : InitEnv) (name : String) (pool : ElasticPool)
    (w : SearchWorld) (es : Elastic) (hit : pool.lookup name = some es) :
    InitES env name pool w = (InitOutcome.returned es, pool, w) := by
  simp [InitES, hit]

theorem InitES_lookup_other (env : InitEnv) (name other : String) (pool : ElasticPool)
    (w : SearchWorld) (hne : other ≠ name) :
    (InitES env name pool w).2.1.lookup other = pool.lookup other := by
  have h1 : (other == name) = false := by simpa using hne
  unfold InitES
  cases pool.lookup name with
  | some es => rfl
  | none =>
    cases hn : env.NewClient ((env.getConfig name).1 ++ ":" ++ (env.getConfig name).2) with
    | some e => simp [hn]
    | none =>
      cases hp : env.Ping ((env.getConfig name).1 ++ ":" ++ (env.getConfig name).2) with
      | some e => simp [hn, hp]
      | none =>
        cases hv : env.ElasticsearchVersion
            ((env.getConfig name).1 ++ ":" ++ (env.getConfig name).2) with
        | some e => simp [hn, hp, hv]
        | none =>
          simp [hn, hp, hv, ElasticPool.set, List.lookup, h1,
            lookup_filter_bne pool name other hne]

theorem InitES_lookup_keeps (env : InitEnv) (name n : String) (pool : ElasticPool)
    (w : SearchWorld) (es : Elastic) (hit : pool.lookup name = some es) :
    (InitES env n pool w).2.1.lookup name = some es := by
  by_cases hn : name = n
  · subst hn
    rw [InitES_of_lookup_some env name pool w es hit]
    exact hit
  · rw [InitES_lookup_other env n name pool w hn]
    exact hit

theorem InitESSeq_lookup_keeps (env : InitEnv) (name : String) (es : Elastic)
    (ns : List String) :
    ∀ (pool : ElasticPool) (w : SearchWorld), pool.lookup name = some es →
      (InitESSeq env ns pool w).1.lookup name = some es := by
  induction ns with
  | nil => intro pool w hit; exact hit
  | cons n ns ih =>
    intro pool w hit
    exact ih _ _ (InitES_lookup_keeps env name n pool w es hit)

theorem Conn_returned_registers (env : RedisEnv) (name : String) (obj obj' : Registry)
    (w w' : World) (db : RedisDB) (err : Option GoError)
    (hret : Conn env name obj w = (ConnOutcome.returned (some db) err, obj', w')) :
    obj'.lookup name = some db := by
  unfold Conn at hret
  cases hl : obj.lookup name with
  | some d =>
    simp [hl] at hret
    obtain ⟨⟨hd, _⟩, ho, _⟩ := hret
    subst hd; subst ho
    exact hl
  | none =>
    simp only [hl] at hret
    cases hm : (env.getConfig name).is_log.2.bind env.must with
    | some v => simp [hm] at hret
    | none =>
      simp [hm, RedisDB.Do] at hret
      obtain ⟨⟨hd, _⟩, ho, _⟩ := hret
      subst hd; subst ho
      simp [Registry.set, List.lookup]

theorem InitES_returned_registers (env : InitEnv) (name : String) (pool pool' : ElasticPool)
    (w w' : SearchWorld) (es : Elastic)
    (hret : InitES env name pool w = (InitOutcome.returned es, pool', w')) :
    pool'.lookup name = some es := by
  unfold InitES at hret
  cases hl : pool.lookup name with
  | some d =>
    simp [hl] at hret
    obtain ⟨hd, ho, _⟩ := hret
    subst hd; subst ho
    exact hl
  | none =>
    simp only [hl] at hret
    cases hn : env.NewClient ((env.getConfig name).1 ++ ":" ++ (env.getConfig name).2) with
    | some e => simp [hn] at hret
    | none =>
      cases hp : env.Ping ((env.getConfig name).1 ++ ":" ++ (env.getConfig name).2) with
      | some e => simp [hn, hp] at hret
      | none =>
        cases hv : env.ElasticsearchVersion
            ((env.getConfig name).1 ++ ":" ++ (env.getConfig name).2) with
        | some e => simp [hn, hp, hv] at hret
        | none =>
          simp [hn, hp, hv] at hret
          obtain ⟨hd, ho, _⟩ := hret
          subst hd; subst ho
          simp [ElasticPool.set, List.lookup]

/-- C12. Once `Conn(name)` has returned a client, a call `Conn(name)` made after any further
sequential calls of `Conn` (for this or other names) returns that same client and changes
neither the registry nor the world: no pool is built and nothing is sent to the backend. The
same holds for `InitES(name)`: the later call returns the same client, builds no client and
sends no probe. So the instance registered under a name is never replaced. A call for one
name leaves the entry of every other name as it was, in both registries. -/
theorem registries_keep_one_instance_per_name (renv : RedisEnv) (ienv : InitEnv)
    (name : String) :
    (∀ (obj obj' : Registry) (w w' : World) (db : RedisDB) (err : Option GoError)
        (ns : List String),
      Conn renv name obj w = (ConnOutcome.returned (some db) err, obj', w') →
      Conn renv name (ConnSeq renv ns obj' w').1 (ConnSeq renv ns obj' w').2 =
        (ConnOutcome.returned (some db) none, (ConnSeq renv ns obj' w').1,
         (ConnSeq renv ns obj' w').2)) ∧
    (∀ (other : String) (obj : Registry) (w : World), other ≠ name →
      (Conn renv name obj w).2.1.lookup other = obj.lookup other) ∧
    (∀ (pool pool' : ElasticPool) (w w' : SearchWorld) (es : Elastic) (ns : List String),
      InitES ienv name pool w = (InitOutcome.returned es, pool', w') →
      InitES ienv name (InitESSeq ienv ns pool' w').1 (InitESSeq ienv ns pool' w').2 =
        (InitOutcome.returned es, (InitESSeq ienv ns pool' w').1,
         (InitESSeq ienv ns pool' w').2)) ∧
    (∀ (other : String) (pool : ElasticPool) (w : SearchWorld), other ≠ name →
      (InitES ienv name pool w).2.1.lookup other = pool.lookup other) := by
  refine ⟨?_, ?_, ?_, ?_⟩
  · intro obj obj' w w' db err ns hret
    exact Conn_of_lookup_some renv name _ _ db
      (ConnSeq_lookup_keeps renv name db ns obj' w'
        (Conn_returned_registers renv name obj obj' w w' db err hret))
  · intro other obj w hne
    exact Conn_lookup_other renv name other obj w hne
  · intro pool pool' w w' es ns hret
    exact InitES_of_lookup_some ienv name _ _ es
      (InitESSeq_lookup_keeps ienv name es ns pool' w'
        (InitES_returned_registers ienv name pool pool' w w' es hret))
  · intro other pool w hne
    exact InitES_lookup_other ienv name other pool w hne

/-- C12 at concrete calls: after `InitES("main")` on the empty registry, the calls
`InitES("other")` and `InitES("main")` follow, and one more `InitES("main")` returns the
client 0 again with two clients built in all; likewise `Conn("default")` after
`Conn("other")` and `Conn("default")` returns the client on pool 0. -/
theorem registries_keep_one_instance_per_name_witness :
    InitES sampleInitEnv "main"
        (InitESSeq sampleInitEnv ["other", "main"]
          [("main", Elastic.mk 0 "http://es:9200")]
          (SearchWorld.mk 1 ["http://es:9200"] ["http://es:9200"])).1
        (InitESSeq sampleInitEnv ["other", "main"]
          [("main", Elastic.mk 0 "http://es:9200")]
          (SearchWorld.mk 1 ["http://es:9200"] ["http://es:9200"])).2 =
      (InitOutcome.returned (Elastic.mk 0 "http://es:9200"),
       (InitESSeq sampleInitEnv ["other", "main"]
          [("main", Elastic.mk 0 "http://es:9200")]
          (SearchWorld.mk 1 ["http://es:9200"] ["http://es:9200"])).1,
       (InitESSeq sampleInitEnv ["other", "main"]
          [("main", Elastic.mk 0 "http://es:9200")]
          (SearchWorld.mk 1 ["http://es:9200"] ["http://es:9200"])).2) ∧
    (InitESSeq sampleInitEnv ["other", "main"]
        [("main", Elastic.mk 0 "http://es:9200")]
        (SearchWorld.mk 1 ["http://es:9200"] ["http://es:9200"])).2.clients = 2 ∧
    Conn sampleEnv "default"
        (ConnSeq sampleEnv ["other", "default"] [("default", sampleDb)]
          { World.init with pools := 1 }).1
        (ConnSeq sampleEnv ["other", "default"] [("default", sampleDb)]
          { World.init with pools := 1 }).2 =
      (ConnOutcome.returned (some sampleDb) none,
       (ConnSeq sampleEnv ["other", "default"] [("default", sampleDb)]
          { World.init with pools := 1 }).1,
       (ConnSeq sampleEnv ["other", "default"] [("default", sampleDb)]
          { World.init with pools := 1 }).2) :=
  have key := registries_keep_one_instance_per_name sampleEnv sampleInitEnv
  ⟨(key "main").2.2.1 [] [("main", Elastic.mk 0 "http://es:9200")] (SearchWorld.mk 0 [] [])
      (SearchWorld.mk 1 ["http://es:9200"] ["http://es:9200"]) (Elastic.mk 0 "http://es:9200")
      ["other", "main"] (by decide),
   by decide,
   (key "default").1 [] [("default", sampleDb)] World.init { World.init with pools := 1 }
      sampleDb none ["other", "default"] rfl⟩

end GinFrame
